import Mathlib

/-!
Frostware-bot temporary-grant scheduler: a shallow embedding.

This file embeds the permission/grant core of `src/Main.py` (a Discord bot)
in Lean 4 and proves properties of it.

Modelled parts of the source:
* `parse_duration` (Main.py 40-55), with Python `int()` modelled on the
  sign-and-digits core (`pyInt`);
* the role predicates `is_admin`, `has_essential_role`, `has_prime_role`,
  `is_permitted` (Main.py 57-74);
* the global mutable state (`permitted_users` set, `user_timeouts` dict,
  Main.py 37-38), extended with an explicit task list so that
  `asyncio.create_task` / `.cancel()` and timer firing become state
  transitions;
* the command handlers `whitelist` (146-208), `permit` (224-256),
  `unpermit` (268-295) and the timeout callbacks
  `remove_role_after_timeout` (210-222), `remove_permit_after_timeout`
  (258-266).

External effects are modelled as follows: Discord role assignment
(`user.add_roles` / `user.remove_roles`) is the role-assignment backend; it
mutates a `(userId, roleId)` membership list in the state and bumps a call
counter (claims compare call counts).  The `remove_roles` call inside the
expiry callback may fail (`discord.NotFound` or any other exception); this
is modelled by a `BackendOutcome` parameter.  Sending embeds/log lines has
no bearing on any claim and is not modelled (the returned
`Res` value stands for the embed it sends).  `asyncio.sleep d` followed by
the callback body is modelled as a task record with an absolute due time
`now + d`; a negative `d` (Python sleeps not at all) simply makes the task
due immediately.
-/

/-- A parsed duration: a (possibly negative) number of seconds, or
`float` infinity. -/
inductive Duration where
  | finite (seconds : Int)
  | infinite
deriving DecidableEq, Repr

/-- Decimal value of a list of digit characters (most significant first),
as `int()` reads them. -/
def digitsVal (l : List Char) : Nat :=
  l.foldl (fun a c => a * 10 + (c.toNat - 48)) 0

/-- Python built-in `int(str)` on the shapes relevant to the bot: an
optional sign followed by one or more decimal digits.  (Real `int()` also
strips surrounding whitespace and allows `_` separators; no caller in the
source produces those.)  Returns `none` where `int()` raises `ValueError`. -/
def pyInt (s : String) : Option Int :=
  match s.data with
  | [] => none
  | '-' :: rest =>
      if rest ≠ [] ∧ rest.all Char.isDigit then some (-(digitsVal rest : Int))
      else none
  | '+' :: rest =>
      if rest ≠ [] ∧ rest.all Char.isDigit then some (digitsVal rest : Int)
      else none
  | l =>
      if l.all Char.isDigit then some (digitsVal l : Int) else none

/-- Python `str.lower()`. -/
def lowerStr (s : String) : String := ⟨s.data.map Char.toLower⟩

/-- Python `str.endswith(c)` for a single-character suffix. -/
def endsWithChar (s : String) (c : Char) : Bool := s.data.getLast? = some c

/-- Python `str[:-1]`. -/
def dropLast1 (s : String) : String := ⟨s.data.dropLast⟩

/-- `parse_duration` (Main.py 40-55): parse a duration string to seconds.
`None` (here `none`) signals the `ValueError` path. -/
def parse_duration (duration_str : String) : Option Duration :=
  if lowerStr duration_str = "inf" ∨ lowerStr duration_str = "infinite" then
    some .infinite
  else if endsWithChar duration_str 'm' then
    (pyInt (dropLast1 duration_str)).map (fun n => .finite (n * 60))
  else if endsWithChar duration_str 'h' then
    (pyInt (dropLast1 duration_str)).map (fun n => .finite (n * 3600))
  else if endsWithChar duration_str 'd' then
    (pyInt (dropLast1 duration_str)).map (fun n => .finite (n * 86400))
  else
    (pyInt duration_str).map (fun n => .finite (n * 60))


/-! Roles and permission predicates. -/

/-- A Discord member as the handlers see it: an id and the snapshot of its
role ids (`user.roles`). -/
structure Member where
  id : Nat
  roles : List Nat
deriving DecidableEq, Repr

/-- The environment-variable role configuration (Main.py 24-26). -/
structure Config where
  ADMIN_ROLE_ID : Nat
  ESSENTIAL_ROLE_ID : Nat
  PRIME_ROLE_ID : Nat
deriving DecidableEq, Repr

/-- `is_admin` (Main.py 57-59). -/
def is_admin (cfg : Config) (user : Member) : Bool :=
  user.roles.any (fun r => r == cfg.ADMIN_ROLE_ID)

/-- `has_essential_role` (Main.py 61-63). -/
def has_essential_role (cfg : Config) (user : Member) : Bool :=
  user.roles.any (fun r => r == cfg.ESSENTIAL_ROLE_ID)

/-- `has_prime_role` (Main.py 65-67). -/
def has_prime_role (cfg : Config) (user : Member) : Bool :=
  user.roles.any (fun r => r == cfg.PRIME_ROLE_ID)

/-- `is_permitted` (Main.py 69-74); `permitted_users` is the global set,
passed here explicitly. -/
def is_permitted (cfg : Config) (permitted_users : List Nat) (user : Member) : Bool :=
  is_admin cfg user ||
  has_essential_role cfg user ||
  has_prime_role cfg user ||
  permitted_users.contains user.id

/-! The mutable state.

`permitted_users : set` and `user_timeouts : dict` are the two global
containers (Main.py 37-38); `asyncio.create_task` values are modelled as
indices into an ever-growing task list, so cancellation and firing are
observable. -/

/-- What a scheduled timeout callback will do when it fires. -/
inductive CbKind where
  | removeRole (userId roleId : Nat)
  | removePermit (userId : Nat)
deriving DecidableEq, Repr

/-- Status of an `asyncio` task: still sleeping, `.cancel()`ed, or its
body has run. -/
inductive TStatus where
  | pending
  | cancelled
  | fired
deriving DecidableEq, Repr

/-- One task created by `asyncio.create_task(...after_timeout(...))`:
`dueAt` is the absolute time at which the `asyncio.sleep` ends. -/
structure TaskRec where
  dueAt : Int
  kind : CbKind
  status : TStatus
deriving DecidableEq, Repr

/-- The bot state: the wall clock, the two global containers, the task
list (task id = index), and call counters for the role-assignment backend
(`user.add_roles` / `user.remove_roles`).  `roles` is the backend-side
role membership, as `(userId, roleId)` pairs. -/
structure BotState where
  now : Int
  permitted_users : List Nat
  user_timeouts : List (Nat × Nat)
  tasks : List TaskRec
  roles : List (Nat × Nat)
  add_calls : Nat
  remove_calls : Nat
deriving DecidableEq, Repr

/-- Python `set.add`: insert if absent. -/
def addSet (l : List Nat) (x : Nat) : List Nat :=
  if l.contains x then l else x :: l

/-- Python `set.discard`: remove if present (no error if absent). -/
def discardSet (l : List Nat) (x : Nat) : List Nat :=
  l.filter (fun a => a != x)

/-- Python `dict[k]` lookup on `user_timeouts` (also `k in dict` via
`Option.isSome`). -/
def lookupTO (m : List (Nat × Nat)) (k : Nat) : Option Nat :=
  (m.find? (fun p => p.1 == k)).map (fun p => p.2)

/-- Python `dict[k] = v`: replace any entry for `k`. -/
def setTO (m : List (Nat × Nat)) (k v : Nat) : List (Nat × Nat) :=
  (k, v) :: m.filter (fun p => p.1 != k)

/-- Python `del dict[k]`. -/
def delTO (m : List (Nat × Nat)) (k : Nat) : List (Nat × Nat) :=
  m.filter (fun p => p.1 != k)

/-- Backend role-membership insert (`user.add_roles(role)` effect). -/
def addRolePair (l : List (Nat × Nat)) (u r : Nat) : List (Nat × Nat) :=
  if l.contains (u, r) then l else (u, r) :: l

/-- Set the status of task `tid` (if it is still pending); used for both
`.cancel()` and for marking a task as having run. -/
def setStatus (ts : List TaskRec) (tid : Nat) (st : TStatus) : List TaskRec :=
  match ts, tid with
  | [], _ => []
  | t :: rest, 0 =>
      (if t.status = .pending then { t with status := st } else t) :: rest
  | t :: rest, n + 1 => t :: setStatus rest n st

/-- Outcome of the backend call `user.remove_roles(role)` inside the
expiry callback: success, `discord.NotFound`, or any other exception. -/
inductive BackendOutcome where
  | ok
  | notFound
  | err
deriving DecidableEq, Repr

/-- The ten decimal digit characters. -/
def decDigits : List Char := ['0', '1', '2', '3', '4', '5', '6', '7', '8', '9']

/-- Result value standing for the embed each handler sends back. -/
inductive Res where
  | unauthorized
  | invalidPlan
  | invalidDuration
  | roleNotFound
  | granted
  | revoked
  | notPermitted
deriving DecidableEq, Repr

/-! Command handlers and timeout callbacks. -/

/-- `remove_permit_after_timeout` (Main.py 258-266), the body that runs
after the `asyncio.sleep`: `permitted_users.discard(user_id)` inside the
`try`, then the `finally` deletes `user_timeouts[user_id]` if present.
Nothing in the body can raise. -/
def remove_permit_after_timeout (user_id : Nat) (s : BotState) : BotState :=
  let s1 := { s with permitted_users := discardSet s.permitted_users user_id }
  { s1 with
    user_timeouts :=
      if (lookupTO s1.user_timeouts user_id).isSome then
        delTO s1.user_timeouts user_id
      else s1.user_timeouts }

/-- `remove_role_after_timeout` (Main.py 210-222), the body after the
sleep: `await user.remove_roles(role)` is the backend call, whose outcome
is a parameter; `discord.NotFound` and every other exception are caught
and logged, so the body is total; the `finally` deletes
`user_timeouts[user.id]` if present. -/
def remove_role_after_timeout (outcome : BackendOutcome) (userId roleId : Nat)
    (s : BotState) : BotState :=
  let s1 := { s with
    remove_calls := s.remove_calls + 1,
    roles :=
      match outcome with
      | .ok => s.roles.filter (fun p => p != (userId, roleId))
      | .notFound => s.roles
      | .err => s.roles }
  { s1 with
    user_timeouts :=
      if (lookupTO s1.user_timeouts userId).isSome then
        delTO s1.user_timeouts userId
      else s1.user_timeouts }

/-- `permit` (Main.py 224-256): admin gate, duration parse,
`permitted_users.add(user.id)`, and for a finite duration a fresh task is
created and its handle stored with `user_timeouts[user.id] = ...` —
overwriting, never cancelling, any handle already there. -/
def permit (cfg : Config) (author target : Member) (duration : String)
    (s : BotState) : BotState × Res :=
  if !is_admin cfg author then (s, .unauthorized)
  else
    match parse_duration duration with
    | none => (s, .invalidDuration)
    | some dur =>
      let s1 := { s with permitted_users := addSet s.permitted_users target.id }
      match dur with
      | .finite secs =>
          let tid := s1.tasks.length
          ({ s1 with
             tasks := s1.tasks ++ [⟨s1.now + secs, .removePermit target.id, .pending⟩],
             user_timeouts := setTO s1.user_timeouts target.id tid }, .granted)
      | .infinite => (s1, .granted)

/-- `whitelist` (Main.py 146-208): admin gate, plan validation, duration
parse, `ctx.guild.get_role` (modelled by membership in `guildRoles`),
`await user.add_roles(role)` (modelled as succeeding: the
`discord.Forbidden` branch only sends an embed), then for a finite
duration a fresh task whose handle is stored in the same shared
`user_timeouts` dict, again without cancelling a prior handle. -/
def whitelist (cfg : Config) (guildRoles : List Nat) (author target : Member)
    (duration plan : String) (s : BotState) : BotState × Res :=
  if !is_admin cfg author then (s, .unauthorized)
  else if !(lowerStr plan = "essential" ∨ lowerStr plan = "prime" : Bool) then
    (s, .invalidPlan)
  else
    match parse_duration duration with
    | none => (s, .invalidDuration)
    | some dur =>
      let role_id :=
        if lowerStr plan = "essential" then cfg.ESSENTIAL_ROLE_ID
        else cfg.PRIME_ROLE_ID
      if !guildRoles.contains role_id then (s, .roleNotFound)
      else
        let s1 := { s with
          roles := addRolePair s.roles target.id role_id,
          add_calls := s.add_calls + 1 }
        match dur with
        | .finite secs =>
            let tid := s1.tasks.length
            ({ s1 with
               tasks := s1.tasks ++ [⟨s1.now + secs, .removeRole target.id role_id, .pending⟩],
               user_timeouts := setTO s1.user_timeouts target.id tid }, .granted)
        | .infinite => (s1, .granted)

/-- `unpermit` (Main.py 268-295): admin gate; if the target is in
`permitted_users`, discard it, cancel `user_timeouts[user.id]` if present
and delete the entry; otherwise report that the user was not permitted,
touching nothing. -/
def unpermit (cfg : Config) (author target : Member) (s : BotState) :
    BotState × Res :=
  if !is_admin cfg author then (s, .unauthorized)
  else if s.permitted_users.contains target.id then
    let s1 := { s with permitted_users := discardSet s.permitted_users target.id }
    let s2 :=
      match lookupTO s1.user_timeouts target.id with
      | some tid =>
          { s1 with
            tasks := setStatus s1.tasks tid .cancelled,
            user_timeouts := delTO s1.user_timeouts target.id }
      | none => s1
    (s2, .revoked)
  else (s, .notPermitted)

/-- The event loop firing task `tid`: only a still-pending task whose
sleep has elapsed runs its callback body (and is marked fired);
`outcome` is the result of the backend call a `removeRole` body makes. -/
def fireTask (tid : Nat) (outcome : BackendOutcome) (s : BotState) : BotState :=
  match s.tasks.get? tid with
  | none => s
  | some t =>
      if t.status = .pending ∧ t.dueAt ≤ s.now then
        let s1 := { s with tasks := setStatus s.tasks tid .fired }
        match t.kind with
        | .removeRole u r => remove_role_after_timeout outcome u r s1
        | .removePermit u => remove_permit_after_timeout u s1
      else s

/-- Let wall-clock time pass (no callback runs by itself; the event loop
runs them via `fireTask`). -/
def advanceTo (t : Int) (s : BotState) : BotState := { s with now := t }

/-- The initial state: empty containers, clock at 0. -/
def initState : BotState := ⟨0, [], [], [], [], 0, 0⟩

/-- A concrete configuration for scenario evaluations. -/
def cfg0 : Config := ⟨1, 2, 3⟩

/-- An administrator (holds role 1 = `ADMIN_ROLE_ID`). -/
def admin0 : Member := ⟨100, [1]⟩

/-- An ordinary target user. -/
def userA : Member := ⟨200, []⟩


/-! Helper lemmas about the container operations. -/

theorem addSet_contains_self (l : List Nat) (x : Nat) :
    (addSet l x).contains x = true := by
  unfold addSet
  split
  · assumption
  · simp [List.contains_cons]

theorem mem_addSet_self (l : List Nat) (x : Nat) : x ∈ addSet l x := by
  unfold addSet
  split
  · next h => simpa using h
  · exact List.mem_cons_self x l

theorem lookupTO_setTO_self (m : List (Nat × Nat)) (k v : Nat) :
    lookupTO (setTO m k v) k = some v := by
  simp [lookupTO, setTO, List.find?]

theorem lookupTO_delTO_self (m : List (Nat × Nat)) (k : Nat) :
    lookupTO (delTO m k) k = none := by
  induction m with
  | nil => rfl
  | cons p rest ih =>
      by_cases h : p.1 = k
      · have hb : (p.1 != k) = false := by simp [bne, h]
        simp only [delTO, List.filter_cons, hb, if_neg Bool.false_ne_true]
        exact ih
      · simp only [delTO, List.filter_cons] at *
        have hb : (p.1 != k) = true := by simp [bne, h]
        rw [if_pos hb]
        simp only [lookupTO, List.find?_cons] at *
        have : (p.1 == k) = false := by simp [h]
        rw [this]
        exact ih

theorem lookupTO_after_finally (m : List (Nat × Nat)) (u : Nat) :
    lookupTO (if (lookupTO m u).isSome then delTO m u else m) u = none := by
  split
  · exact lookupTO_delTO_self m u
  · next h => exact Option.not_isSome_iff_eq_none.mp (by simpa using h)

theorem discardSet_not_contains (l : List Nat) (x : Nat)
    (h : l.contains x = false) : discardSet l x = l := by
  unfold discardSet
  rw [List.filter_eq_self]
  intro a ha
  have hx : x ∉ l := by simpa using h
  have : a ≠ x := fun he => hx (he ▸ ha)
  simpa [bne] using this

theorem setStatus_append_pending (l : List TaskRec) (t : TaskRec)
    (ht : t.status = .pending) (st : TStatus) :
    setStatus (l ++ [t]) l.length st = l ++ [{ t with status := st }] := by
  induction l with
  | nil => simp [setStatus, ht]
  | cons a rest ih => simp [setStatus, ih]

theorem fireTask_stuck (tid : Nat) (outcome : BackendOutcome) (s : BotState)
    (t : TaskRec) (hget : s.tasks.get? tid = some t)
    (hst : t.status ≠ .pending) :
    fireTask tid outcome s = s := by
  unfold fireTask
  rw [hget]
  exact if_neg (fun h => hst h.1)

theorem permit_finite_eq (cfg : Config) (author target : Member)
    (dtxt : String) (secs : Int) (s : BotState)
    (hadm : is_admin cfg author = true)
    (hdur : parse_duration dtxt = some (.finite secs)) :
    permit cfg author target dtxt s =
      ({ s with
         permitted_users := addSet s.permitted_users target.id,
         tasks := s.tasks ++ [⟨s.now + secs, .removePermit target.id, .pending⟩],
         user_timeouts := setTO s.user_timeouts target.id s.tasks.length },
       .granted) := by
  simp [permit, hadm, hdur]

/-- C5: after `permit(A, finite d)` followed by `unpermit(A)` (the manual
revoke) strictly before the timer fires, the task of that grant is cancelled,
and attempting to fire it at any later time `t'` changes nothing: no
store mutation and no backend call happen at or after the original
expiry. -/
theorem manual_revoke_prevents_expiry
    (cfg : Config) (author target : Member) (dtxt : String) (secs t' : Int)
    (outcome : BackendOutcome) (s : BotState)
    (hadm : is_admin cfg author = true)
    (hdur : parse_duration dtxt = some (.finite secs)) :
    (((unpermit cfg author target (permit cfg author target dtxt s).1).1).tasks.get?
        s.tasks.length).map TaskRec.status = some .cancelled ∧
    fireTask s.tasks.length outcome
        (advanceTo t'
          (unpermit cfg author target (permit cfg author target dtxt s).1).1) =
      advanceTo t'
        (unpermit cfg author target (permit cfg author target dtxt s).1).1 := by
  have hun : (unpermit cfg author target (permit cfg author target dtxt s).1).1 =
      { s with
        permitted_users := discardSet (addSet s.permitted_users target.id) target.id,
        tasks := s.tasks ++ [⟨s.now + secs, .removePermit target.id, .cancelled⟩],
        user_timeouts :=
          delTO (setTO s.user_timeouts target.id s.tasks.length) target.id } := by
    rw [permit_finite_eq cfg author target dtxt secs s hadm hdur]
    simp [unpermit, hadm, mem_addSet_self, lookupTO_setTO_self,
      setStatus_append_pending]
  rw [hun]
  refine ⟨?_, ?_⟩
  · rw [List.get?_eq_getElem?, List.getElem?_concat_length]
    rfl
  · exact fireTask_stuck _ _ _ _
      (by rw [List.get?_eq_getElem?]; exact List.getElem?_concat_length _ _) (by simp)

/-- Witness for `manual_revoke_prevents_expiry` at the spec's scenario:
`permit(A, "1m")`, manual revoke, clock at 61 seconds. -/
theorem manual_revoke_prevents_expiry_witness :
    (((unpermit cfg0 admin0 userA (permit cfg0 admin0 userA "1m" initState).1).1).tasks.get?
        initState.tasks.length).map TaskRec.status = some .cancelled ∧
    fireTask initState.tasks.length .ok
        (advanceTo 61
          (unpermit cfg0 admin0 userA (permit cfg0 admin0 userA "1m" initState).1).1) =
      advanceTo 61
        (unpermit cfg0 admin0 userA (permit cfg0 admin0 userA "1m" initState).1).1 :=
  manual_revoke_prevents_expiry cfg0 admin0 userA "1m" 60 61 .ok initState
    (by decide) (by decide)

/-- C7: a caller who fails the `is_admin` check gets `Unauthorized` from
`whitelist`, `permit` and `unpermit` alike, with the state returned
untouched — so no backend call is made and no grant or timer is created,
modified or cancelled. -/
theorem unauthorized_no_side_effects
    (cfg : Config) (guildRoles : List Nat) (author target : Member)
    (duration plan : String) (s : BotState)
    (h : is_admin cfg author = false) :
    whitelist cfg guildRoles author target duration plan s = (s, .unauthorized) ∧
    permit cfg author target duration s = (s, .unauthorized) ∧
    unpermit cfg author target s = (s, .unauthorized) := by
  refine ⟨?_, ?_, ?_⟩ <;> simp [whitelist, permit, unpermit, h]

/-- Witness for `unauthorized_no_side_effects`: a non-admin caller. -/
theorem unauthorized_no_side_effects_witness :
    whitelist cfg0 [2, 3] ⟨300, []⟩ userA "5m" "essential" initState =
      (initState, .unauthorized) ∧
    permit cfg0 ⟨300, []⟩ userA "5m" initState = (initState, .unauthorized) ∧
    unpermit cfg0 ⟨300, []⟩ userA initState = (initState, .unauthorized) :=
  unauthorized_no_side_effects cfg0 [2, 3] ⟨300, []⟩ userA "5m" "essential"
    initState (by decide)

/-- C8: revoking a principal with no active permit returns `NotPermitted`
(the `NotGranted` of the spec) and leaves the whole state unchanged — no
backend call, no timer change — and doing it twice in a row gives
`NotPermitted` both times. -/
theorem unpermit_absent_idempotent
    (cfg : Config) (author target : Member) (s : BotState)
    (hadm : is_admin cfg author = true)
    (habs : s.permitted_users.contains target.id = false) :
    unpermit cfg author target s = (s, .notPermitted) ∧
    unpermit cfg author target (unpermit cfg author target s).1 =
      (s, .notPermitted) := by
  have habs' : target.id ∉ s.permitted_users := by simpa using habs
  have h1 : unpermit cfg author target s = (s, .notPermitted) := by
    simp [unpermit, hadm, habs']
  exact ⟨h1, by rw [h1]; exact h1⟩

/-- Witness for `unpermit_absent_idempotent`: revoking a user nobody ever
permitted, twice. -/
theorem unpermit_absent_idempotent_witness :
    unpermit cfg0 admin0 userA initState = (initState, .notPermitted) ∧
    unpermit cfg0 admin0 userA (unpermit cfg0 admin0 userA initState).1 =
      (initState, .notPermitted) :=
  unpermit_absent_idempotent cfg0 admin0 userA initState (by decide) (by decide)

/-- C9: the expiry callbacks are total for every backend outcome
(success, `discord.NotFound`, or any other exception — failures are
logged and absorbed, never propagated), and after either callback body
completes, the entry of that principal is gone from the timer-handle map;
moreover removing an already-removed permit leaves the permitted set
as it was (`set.discard` on an absent element is a no-op). -/
theorem expiry_callback_absorbs_and_cleans
    (outcome : BackendOutcome) (u r : Nat) (s : BotState)
    (habs : s.permitted_users.contains u = false) :
    lookupTO (remove_role_after_timeout outcome u r s).user_timeouts u = none ∧
    lookupTO (remove_permit_after_timeout u s).user_timeouts u = none ∧
    (remove_permit_after_timeout u s).permitted_users = s.permitted_users := by
  refine ⟨?_, ?_, ?_⟩
  · exact lookupTO_after_finally _ u
  · exact lookupTO_after_finally _ u
  · simp [remove_permit_after_timeout, discardSet_not_contains _ _ habs]

/-- Witness for `expiry_callback_absorbs_and_cleans`: a failing backend
removal for a user that holds no permit and has a stale handle. -/
theorem expiry_callback_absorbs_and_cleans_witness :
    lookupTO (remove_role_after_timeout .err 200 2
        ⟨0, [], [(200, 0)], [], [], 0, 0⟩).user_timeouts 200 = none ∧
    lookupTO (remove_permit_after_timeout 200
        ⟨0, [], [(200, 0)], [], [], 0, 0⟩).user_timeouts 200 = none ∧
    (remove_permit_after_timeout 200
        ⟨0, [], [(200, 0)], [], [], 0, 0⟩).permitted_users =
      (⟨0, [], [(200, 0)], [], [], 0, 0⟩ : BotState).permitted_users :=
  expiry_callback_absorbs_and_cleans .err 200 2 ⟨0, [], [(200, 0)], [], [], 0, 0⟩
    (by decide)

/-- C10: `is_permitted` is exactly the disjunction admin-role ∨
essential-role ∨ prime-role ∨ membership in `permitted_users`; and since
`unpermit` only ever shrinks `permitted_users`, a user `v` holding one of
the three roles is still permitted after any manual revoke. -/
theorem is_permitted_disjunction
    (cfg : Config) (pu : List Nat) (u : Member)
    (author target v : Member) (s : BotState)
    (hrole : (is_admin cfg v || has_essential_role cfg v ||
              has_prime_role cfg v) = true) :
    (is_permitted cfg pu u = true ↔
      (is_admin cfg u = true ∨ has_essential_role cfg u = true ∨
       has_prime_role cfg u = true ∨ pu.contains u.id = true)) ∧
    is_permitted cfg ((unpermit cfg author target s).1.permitted_users) v = true := by
  constructor
  · simp only [is_permitted, Bool.or_eq_true]
    simp only [List.contains_eq_any_beq, List.any_eq_true, beq_iff_eq]
    constructor
    · intro h
      rcases h with ((h | h) | h) | ⟨a, ha, rfl⟩ <;> tauto
    · intro h
      rcases h with h | h | h | h
      · tauto
      · tauto
      · tauto
      · exact Or.inr ⟨u.id, by simpa using h, rfl⟩
  · unfold is_permitted
    simp only [Bool.or_eq_true] at hrole ⊢
    tauto

/-- Witness for `is_permitted_disjunction`: a prime-role holder stays
permitted after being unpermitted. -/
theorem is_permitted_disjunction_witness :
    (is_permitted cfg0 [200] ⟨200, []⟩ = true ↔
      (is_admin cfg0 ⟨200, []⟩ = true ∨ has_essential_role cfg0 ⟨200, []⟩ = true ∨
       has_prime_role cfg0 ⟨200, []⟩ = true ∨
       ([200] : List Nat).contains (⟨200, []⟩ : Member).id = true)) ∧
    is_permitted cfg0
      ((unpermit cfg0 admin0 ⟨400, [3]⟩
          ⟨0, [400], [], [], [], 0, 0⟩).1.permitted_users) ⟨400, [3]⟩ = true :=
  is_permitted_disjunction cfg0 [200] ⟨200, []⟩ admin0 ⟨400, [3]⟩ ⟨400, [3]⟩
    ⟨0, [400], [], [], [], 0, 0⟩ (by decide)

/-- C1 (evaluation at the failing input): `permit(A, "1m")` then
`permit(A, "1h")` immediately afterwards.  The task of the first grant (id 0)
is still `pending` after the regrant — nothing cancelled it, the regrant
only overwrote `user_timeouts[A]` with the handle of the new task — and when
the clock reaches 60 seconds and task 0 fires, A is no longer permitted:
the renewed grant was revoked by the old timer, one hour early. -/
theorem regrant_does_not_cancel_prior_timer :
    ((((permit cfg0 admin0 userA "1h"
          (permit cfg0 admin0 userA "1m" initState).1).1).tasks.get? 0).map
        TaskRec.status = some .pending) ∧
    lookupTO ((permit cfg0 admin0 userA "1h"
        (permit cfg0 admin0 userA "1m" initState).1).1).user_timeouts 200 =
      some 1 ∧
    (fireTask 0 .ok (advanceTo 60 (permit cfg0 admin0 userA "1h"
        (permit cfg0 admin0 userA "1m" initState).1).1)).permitted_users.contains
      200 = false := by
  decide

/-- C2 (evaluation at the failing input): `whitelist(A, "5m", essential)`
arms task 0 and stores its handle in `user_timeouts[A]`; the subsequent
`permit(A, "5m")` arms task 1 and stores its handle under the very same
key of the single shared map, discarding the handle of the whitelist grant
(no entry maps to task 0 any more) while the whitelist timer itself is
still pending.  The two grants do not have independent scheduler
handles. -/
theorem shared_timeout_map_overwrites_handle :
    lookupTO ((whitelist cfg0 [2, 3] admin0 userA "5m" "essential"
        initState).1).user_timeouts 200 = some 0 ∧
    lookupTO ((permit cfg0 admin0 userA "5m"
        (whitelist cfg0 [2, 3] admin0 userA "5m" "essential"
          initState).1).1).user_timeouts 200 = some 1 ∧
    (((permit cfg0 admin0 userA "5m"
        (whitelist cfg0 [2, 3] admin0 userA "5m" "essential"
          initState).1).1).tasks.get? 0).map TaskRec.status = some .pending ∧
    ((permit cfg0 admin0 userA "5m"
        (whitelist cfg0 [2, 3] admin0 userA "5m" "essential"
          initState).1).1).user_timeouts.filter (fun p => p.2 == 0) = [] := by
  decide

/-- C3 (evaluation at the failing input): `permit(A, "5m")` then
`permit(A, "inf")`.  The infinite regrant creates no new task (good) but
also cancels nothing, so the now-infinite grant still has the old
scheduler handle in `user_timeouts[A]`, the old timer is still pending,
and when it fires at t = 300 s it revokes the supposedly permanent
grant. -/
theorem infinite_grant_keeps_stale_handle :
    ((permit cfg0 admin0 userA "inf"
        (permit cfg0 admin0 userA "5m" initState).1).1).permitted_users.contains
      200 = true ∧
    ((permit cfg0 admin0 userA "inf"
        (permit cfg0 admin0 userA "5m" initState).1).1).tasks.length = 1 ∧
    lookupTO ((permit cfg0 admin0 userA "inf"
        (permit cfg0 admin0 userA "5m" initState).1).1).user_timeouts 200 =
      some 0 ∧
    (fireTask 0 .ok (advanceTo 300 (permit cfg0 admin0 userA "inf"
        (permit cfg0 admin0 userA "5m" initState).1).1)).permitted_users.contains
      200 = false := by
  decide

/-! Parser lemmas. -/

theorem pyInt_none_of_no_digits (s : String)
    (h : ∀ c ∈ s.data, c.isDigit = false ∧ c ≠ '-' ∧ c ≠ '+') :
    pyInt s = none := by
  obtain ⟨l⟩ := s
  cases l with
  | nil => rfl
  | cons c rest =>
      have hc := h c (List.mem_cons_self c rest)
      unfold pyInt
      split
      · rfl
      · next rest1 heq =>
          have heq' : c :: rest = '-' :: rest1 := heq
          injection heq' with h1 _
          exact absurd h1 hc.2.1
      · next rest1 heq =>
          have heq' : c :: rest = '+' :: rest1 := heq
          injection heq' with h1 _
          exact absurd h1 hc.2.2
      · rw [if_neg]
        intro hall
        have hdig := List.all_eq_true.mp hall c (List.mem_cons_self c rest)
        rw [hc.1] at hdig
        exact Bool.false_ne_true hdig

theorem pyInt_all_digits (l : List Char) (h0 : l ≠ [])
    (hd : ∀ c ∈ l, c.isDigit = true ∧ c ≠ '-' ∧ c ≠ '+') :
    pyInt ⟨l⟩ = some ((digitsVal l : Int)) := by
  cases l with
  | nil => exact absurd rfl h0
  | cons c rest =>
      have hc := hd c (List.mem_cons_self c rest)
      unfold pyInt
      split
      · next heq =>
          have heq' : c :: rest = [] := heq
          exact absurd heq' (by simp)
      · next rest1 heq =>
          have heq' : c :: rest = '-' :: rest1 := heq
          injection heq' with h1 _
          exact absurd h1 hc.2.1
      · next rest1 heq =>
          have heq' : c :: rest = '+' :: rest1 := heq
          injection heq' with h1 _
          exact absurd h1 hc.2.2
      · rw [if_pos (List.all_eq_true.mpr fun c' hc' => (hd c' hc').1)]

/-- C4 counterexample: `"-5m"` is a negative number with a unit suffix,
yet `parse_duration` does NOT return a parse error — the Python `int()`
accepts the sign, so it returns -300 seconds. -/
theorem parse_duration_negative_accepted :
    parse_duration "-5m" = some (.finite (-300)) ∧
    parse_duration "-5m" ≠ none := by
  decide

/-- C4 amended: any string made of characters that are neither digits nor
a sign (so in particular any non-numeric prefix), other than the
`inf`/`infinite` literals, parses to an error, and so does the empty
string; but strings denoting negative numbers are NOT rejected:
`"-5m"` parses to -300 seconds and `"-5"` to -300 seconds. -/
theorem parse_duration_malformed
    (s : String)
    (hnd : ∀ c ∈ s.data, c.isDigit = false ∧ c ≠ '-' ∧ c ≠ '+')
    (hinf : lowerStr s ≠ "inf")
    (hinfinite : lowerStr s ≠ "infinite") :
    parse_duration s = none ∧
    parse_duration "" = none ∧
    parse_duration "-5m" = some (.finite (-300)) ∧
    parse_duration "-5" = some (.finite (-300)) := by
  refine ⟨?_, by decide, by decide, by decide⟩
  have hdrop : pyInt (dropLast1 s) = none := by
    apply pyInt_none_of_no_digits
    intro c hc
    exact hnd c (List.dropLast_subset s.data hc)
  have hfull : pyInt s = none := pyInt_none_of_no_digits s hnd
  unfold parse_duration
  rw [if_neg (by tauto : ¬(lowerStr s = "inf" ∨ lowerStr s = "infinite"))]
  split
  · rw [hdrop]; rfl
  · split
    · rw [hdrop]; rfl
    · split
      · rw [hdrop]; rfl
      · rw [hfull]; rfl

/-- Witness for `parse_duration_malformed` at `"abc"`. -/
theorem parse_duration_malformed_witness :
    parse_duration "abc" = none ∧
    parse_duration "" = none ∧
    parse_duration "-5m" = some (.finite (-300)) ∧
    parse_duration "-5" = some (.finite (-300)) :=
  parse_duration_malformed "abc" (by decide) (by decide) (by decide)

theorem digit_char_facts (c : Char) (h : c ∈ decDigits) :
    c.isDigit = true ∧ c.toLower = c ∧ c ≠ 'm' ∧ c ≠ 'h' ∧ c ≠ 'd' ∧
    c ≠ '-' ∧ c ≠ '+' := by
  fin_cases h <;> decide

theorem map_toLower_digits (l : List Char) (hd : ∀ c ∈ l, c ∈ decDigits) :
    l.map Char.toLower = l := by
  induction l with
  | nil => rfl
  | cons a t ih =>
      have ha := (digit_char_facts a (hd a (List.mem_cons_self a t))).2.1
      simp only [List.map_cons, ha, List.cons.injEq, true_and]
      exact ih fun c hc => hd c (List.mem_cons_of_mem a hc)

/-- C6: the unit conversions — `"5m"` is 300 s, `"2h"` is 7200 s, `"1d"`
is 86400 s, `"inf"`/`"infinite"` (case-insensitively) are Infinite — and
every bare non-negative integer (a non-empty string of decimal digits)
parses to that many minutes, i.e. its decimal value times 60 seconds. -/
theorem parse_duration_contract
    (l : List Char) (h0 : l ≠ []) (hd : ∀ c ∈ l, c ∈ decDigits) :
    parse_duration "5m" = some (.finite 300) ∧
    parse_duration "2h" = some (.finite 7200) ∧
    parse_duration "1d" = some (.finite 86400) ∧
    parse_duration "inf" = some .infinite ∧
    parse_duration "INF" = some .infinite ∧
    parse_duration "infinite" = some .infinite ∧
    parse_duration "Infinite" = some .infinite ∧
    parse_duration ⟨l⟩ = some (.finite ((digitsVal l : Int) * 60)) := by
  refine ⟨by decide, by decide, by decide, by decide, by decide, by decide,
    by decide, ?_⟩
  have hlow : lowerStr ⟨l⟩ = ⟨l⟩ := by
    show (⟨l.map Char.toLower⟩ : String) = ⟨l⟩
    rw [map_toLower_digits l hd]
  have hinf : (⟨l⟩ : String) ≠ "inf" := by
    intro he
    have hl : l = ("inf" : String).data := congrArg String.data he
    have hi : 'i' ∈ l := by rw [hl]; decide
    have := hd 'i' hi
    revert this
    decide
  have hinfinite : (⟨l⟩ : String) ≠ "infinite" := by
    intro he
    have hl : l = ("infinite" : String).data := congrArg String.data he
    have hi : 'i' ∈ l := by rw [hl]; decide
    have := hd 'i' hi
    revert this
    decide
  have hend : ∀ ch : Char, ch ∉ decDigits → endsWithChar ⟨l⟩ ch = false := by
    intro ch hch
    unfold endsWithChar
    cases hg : l.getLast? with
    | none => simp [show (⟨l⟩ : String).data = l from rfl, hg]
    | some c' =>
        have hc' : c' ∈ decDigits := hd c' (List.mem_of_getLast?_eq_some hg)
        have hne : c' ≠ ch := fun he => hch (he ▸ hc')
        simp [show (⟨l⟩ : String).data = l from rfl, hg, hne]
  unfold parse_duration
  rw [hlow, if_neg (by tauto : ¬((⟨l⟩ : String) = "inf" ∨ (⟨l⟩ : String) = "infinite"))]
  rw [hend 'm' (by decide), hend 'h' (by decide), hend 'd' (by decide)]
  simp only [Bool.false_eq_true, if_false]
  have hd' : ∀ c ∈ l, c.isDigit = true ∧ c ≠ '-' ∧ c ≠ '+' := by
    intro c hc
    have h := digit_char_facts c (hd c hc)
    exact ⟨h.1, h.2.2.2.2.2.1, h.2.2.2.2.2.2⟩
  rw [pyInt_all_digits l h0 hd']
  rfl

/-- Witness for `parse_duration_contract` at the bare integer `"12"`
(720 seconds = 12 minutes). -/
theorem parse_duration_contract_witness :
    parse_duration "5m" = some (.finite 300) ∧
    parse_duration "2h" = some (.finite 7200) ∧
    parse_duration "1d" = some (.finite 86400) ∧
    parse_duration "inf" = some .infinite ∧
    parse_duration "INF" = some .infinite ∧
    parse_duration "infinite" = some .infinite ∧
    parse_duration "Infinite" = some .infinite ∧
    parse_duration ⟨['1', '2']⟩ =
      some (.finite ((digitsVal ['1', '2'] : Int) * 60)) :=
  parse_duration_contract ['1', '2'] (by decide) (by decide)


